import Mathlib

/-!
Shallow embedding of `src/spoodle_client.py` (the spoodle pygame client).

Conventions of the embedding:
* Python surfaces (frames) are abstracted by a type parameter `α`; the program
  only stores and returns them.
* Python dictionaries are association lists built in insertion order; a later
  binding for the same key overwrites an earlier one, which `dictLookup`
  reflects by returning the last matching binding.
* Python `is` / `is not` on animation-name strings is modelled as string
  equality (the program only ever passes interned string literals).
* Fallible Python code (raised exceptions: `ValueError`, `ZeroDivisionError`,
  `IndexError`) is modelled with `Except String`.
* Machine integers are `Nat` / `Int`; Python `//` and `%` on non-negative
  operands coincide with `Nat` division and modulus.
-/

namespace Spoodle

/-- Python `Directions(Enum)` from the source, member names kept verbatim
(including the `SOURTHEAST` typo). -/
inductive Directions where
  | EAST
  | NORTH
  | WEST
  | SOUTH
  | NORTHEAST
  | NORTHWEST
  | SOUTHWEST
  | SOURTHEAST
deriving DecidableEq, Repr

/-- Lookup in a Python-dict-as-association-list: the LAST binding of the key
wins, matching dict insertion/overwrite semantics. -/
def dictLookup {β : Type} (d : List (String × β)) (k : String) : Option β :=
  match d with
  | [] => none
  | p :: rest =>
    match dictLookup rest k with
    | some v => some v
    | none => if p.1 = k then some p.2 else none

/-- State of the Python `Animator` class: the animation dictionary, the name of
the animation currently playing, the frame list currently playing, the current
frame index, the accumulated time, and the frame period in milliseconds. -/
structure Animator (α : Type) where
  animations : List (String × List α)
  current_animation : Option String
  playing : Option (List α)
  current_frame : Nat
  time_transpired : Nat
  miliseconds_per_frame : Nat
deriving DecidableEq, Repr

/-- `Animator.__init__`: raises `ValueError` when any animation has zero
frames (this check comes first), then computes `miliseconds_per_frame =
1000 // framerate`, which in Python raises `ZeroDivisionError` when
`framerate` is 0; otherwise it builds the initial state. -/
def mkAnimator {α : Type} (animations : List (String × List α))
    (framerate : Nat) : Except String (Animator α) :=
  if animations.any (fun p => p.2.length == 0) then
    .error "all animations must have at least one frame"
  else if framerate = 0 then
    .error "ZeroDivisionError"
  else
    .ok { animations := animations
          current_animation := none
          playing := none
          current_frame := 0
          time_transpired := 0
          miliseconds_per_frame := 1000 / framerate }

/-- `Animator.play`: `None` clears the selection (and nothing else); an unknown
name raises `ValueError`; replaying the current name is a no-op; a new name is
selected with frame index and accumulated time reset to 0. -/
def Animator.play {α : Type} (a : Animator α) (animation : Option String) :
    Except String (Animator α) :=
  match animation with
  | none => .ok { a with playing := none, current_animation := none }
  | some nm =>
    match dictLookup a.animations nm with
    | none => .error "animation must be one of the animation names"
    | some frames =>
      if a.current_animation = some nm then
        .ok a
      else
        .ok { a with current_animation := some nm
                     playing := some frames
                     current_frame := 0
                     time_transpired := 0 }

/-- `Animator.update`: Python `if not self.playing` is truthiness, so both
`None` and an empty list short-circuit to returning no frame. Otherwise the
delta is accumulated; if the accumulator reaches the frame period the index
advances by `accumulated // period` modulo the sequence length and the
accumulator keeps `accumulated % period`. Python `// 0` would raise
`ZeroDivisionError` and out-of-range list indexing `IndexError`. -/
def Animator.update {α : Type} (a : Animator α) (delta_time : Nat) :
    Except String (Option α × Animator α) :=
  match a.playing with
  | none => .ok (none, a)
  | some frames =>
    if frames.isEmpty then .ok (none, a)
    else
      let t := a.time_transpired + delta_time
      if a.miliseconds_per_frame ≤ t then
        if a.miliseconds_per_frame = 0 then
          .error "ZeroDivisionError"
        else
          let frames_advanced := t / a.miliseconds_per_frame
          let idx := (a.current_frame + frames_advanced) % frames.length
          match frames.get? idx with
          | none => .error "IndexError"
          | some f =>
            .ok (some f, { a with time_transpired := t % a.miliseconds_per_frame
                                  current_frame := idx })
      else
        match frames.get? a.current_frame with
        | none => .error "IndexError"
        | some f => .ok (some f, { a with time_transpired := t })

/-- Invariant of animator states the program can actually build: positive
frame period, no empty sequence in the animation set, and an in-bounds frame
index whenever a sequence is selected. -/
def Animator.WF {α : Type} (a : Animator α) : Prop :=
  1 ≤ a.miliseconds_per_frame
  ∧ (∀ p ∈ a.animations, p.2 ≠ [])
  ∧ (∀ frames, a.playing = some frames →
      frames ≠ [] ∧ a.current_frame < frames.length)

/-- States reachable from `a` through successful `play` and `update` calls. -/
inductive Animator.Reachable {α : Type} : Animator α → Animator α → Prop
  | refl (a : Animator α) : Animator.Reachable a a
  | play_step (a b c : Animator α) (nm : Option String) :
      Animator.Reachable a b → b.play nm = .ok c → Animator.Reachable a c
  | update_step (a b c : Animator α) (d : Nat) (f : Option α) :
      Animator.Reachable a b → b.update d = .ok (f, c) →
      Animator.Reachable a c

/-- Keyboard state restricted to the four keys `Player.update` reads. -/
structure KeysPressed where
  k_a : Bool
  k_d : Bool
  k_w : Bool
  k_s : Bool
deriving DecidableEq, Repr

/-- State of the Python `Player` (a `GameObject` subclass): position rectangle
top-left corner, currently displayed image, optional animator, speed and
facing. -/
structure Player (α : Type) where
  x : Int
  y : Int
  image : Option α
  animator : Option (Animator α)
  speed : Nat
  facing : Directions
deriving DecidableEq, Repr

/-- Python truthiness of `self.animator.playing` (`None` and `[]` are falsy). -/
def playingTruthy {α : Type} : Option (List α) → Bool
  | none => false
  | some l => !l.isEmpty

/-- `GameObject.update`, the `super().update(gamestate)` call inside
`Player.update`: when an animator is attached and its `playing` attribute is
truthy, the displayed image is replaced by the animator's update result. -/
def gameObjectUpdate {α : Type} (p : Player α) (time_delta : Nat) :
    Except String (Player α) :=
  match p.animator with
  | none => .ok p
  | some anim =>
    if playingTruthy anim.playing then
      match anim.update time_delta with
      | .error e => .error e
      | .ok (img, anim2) => .ok { p with image := img, animator := some anim2 }
    else
      .ok p

/-- Helper for the `self.animator.play(...)` calls in `Player.update`: with no
animator attached Python would raise `AttributeError`. -/
def playOn {α : Type} (p : Player α) (nm : String) : Except String (Player α) :=
  match p.animator with
  | none => .error "AttributeError"
  | some anim =>
    match anim.play (some nm) with
    | .error e => .error e
    | .ok anim2 => .ok { p with animator := some anim2 }

/-- `Player.update`: first the base-class update, then `movement_delta =
speed * time_delta // 1000`, then the four key checks in source order
`K_a` (west), `K_d` (east), `K_w` (north), `K_s` (south), each independently
moving the rect, setting `facing` and requesting the walk animation. -/
def Player.update {α : Type} (p : Player α) (time_delta : Nat)
    (keys : KeysPressed) : Except String (Player α) :=
  (gameObjectUpdate p time_delta).bind fun p1 =>
    let movement_delta : Int := ((p1.speed * time_delta) / 1000 : Nat)
    (if keys.k_a then
        playOn { p1 with x := p1.x - movement_delta, facing := .WEST }
          "walk_left"
      else .ok p1).bind fun p2 =>
    (if keys.k_d then
        playOn { p2 with x := p2.x + movement_delta, facing := .EAST }
          "walk_right"
      else .ok p2).bind fun p3 =>
    (if keys.k_w then
        playOn { p3 with y := p3.y - movement_delta, facing := .NORTH }
          "walk_up"
      else .ok p3).bind fun p4 =>
    if keys.k_s then
      playOn { p4 with y := p4.y + movement_delta, facing := .SOUTH }
        "walk_down"
    else .ok p4

/-- The walk animation set used by the concrete player scenarios, with frames
numbered 0..7. -/
def walkAnims : List (String × List Nat) :=
  [("walk_left", [0, 1]), ("walk_right", [2, 3]), ("walk_up", [4, 5]),
   ("walk_down", [6, 7])]

/-- A concrete player as `Game.main` spawns it: position (150, 150), speed
250, facing south, with an animator built from the walk animations at the
default framerate 13 (frame period `1000 // 13 = 76` ms). -/
def playerEx : Player Nat :=
  { x := 150, y := 150, image := none,
    animator := some { animations := walkAnims, current_animation := none,
                       playing := none, current_frame := 0,
                       time_transpired := 0, miliseconds_per_frame := 76 },
    speed := 250, facing := .SOUTH }

/-- The result state of `playerEx.update 76` with only the west key held. -/
def playerExWest76 : Player Nat :=
  { x := 131, y := 150, image := none,
    animator := some { animations := walkAnims,
                       current_animation := some "walk_left",
                       playing := some [0, 1], current_frame := 0,
                       time_transpired := 0, miliseconds_per_frame := 76 },
    speed := 250, facing := .WEST }

/-- The result state of `playerEx.update 7` with only the west key held. -/
def playerExWest7 : Player Nat :=
  { x := 149, y := 150, image := none,
    animator := some { animations := walkAnims,
                       current_animation := some "walk_left",
                       playing := some [0, 1], current_frame := 0,
                       time_transpired := 0, miliseconds_per_frame := 76 },
    speed := 250, facing := .WEST }

/-- The result state of `playerEx.update 10` with the west and east keys both
held. -/
def playerExWE10 : Player Nat :=
  { x := 150, y := 150, image := none,
    animator := some { animations := walkAnims,
                       current_animation := some "walk_right",
                       playing := some [2, 3], current_frame := 0,
                       time_transpired := 0, miliseconds_per_frame := 76 },
    speed := 250, facing := .EAST }

/-- A pixel rectangle: left, top, width, height. -/
structure Rect where
  x : Nat
  y : Nat
  w : Nat
  h : Nat
deriving DecidableEq, Repr

/-- One sliced sprite: the clip region taken from the sheet and the final
width/height of the produced surface (after optional rescaling). -/
structure SubImage where
  src : Rect
  width : Nat
  height : Nat
deriving DecidableEq, Repr

/-- Python `range(start, stop, step)` for a positive step. -/
def pyRange (start stop step : Nat) : List Nat :=
  List.range' start ((stop - start + step - 1) / step) step

/-- `Surface.set_clip` constrains the clip rectangle to the surface area;
`get_clip` then returns the constrained rectangle. -/
def clipRect (r : Rect) (sheetW sheetH : Nat) : Rect :=
  { x := min r.x sheetW
    y := min r.y sheetH
    w := min (r.x + r.w) sheetW - min r.x sheetW
    h := min (r.y + r.h) sheetH - min r.y sheetH }

/-- `slice_sprites`, with the image abstracted to its dimensions: scans the
sheet with `range(y0, sheetH, height+padding)` rows and
`range(x0, sheetW, width+padding)` columns, and for each cell clips
`Rect(col, row, height, width)` — width and height in the swapped order of the
source — against the sheet and extracts that subsurface, rescaling when
`resize_to` is given. A zero range step would raise `ValueError` in Python. -/
def slice_sprites (sheetW sheetH : Nat) (size : Nat × Nat)
    (resize_to : Option (Nat × Nat)) (starting_coords : Nat × Nat)
    (padding : Nat) : Except String (List SubImage) :=
  let width := size.1
  let height := size.2
  let x_coord := starting_coords.1
  let y_coord := starting_coords.2
  if height + padding = 0 ∨ width + padding = 0 then
    .error "ValueError: range() arg 3 must not be zero"
  else
    .ok <| (pyRange y_coord sheetH (height + padding)).flatMap fun row =>
      (pyRange x_coord sheetW (width + padding)).map fun col =>
        let clip := clipRect { x := col, y := row, w := height, h := width }
          sheetW sheetH
        match resize_to with
        | none => { src := clip, width := clip.w, height := clip.h }
        | some rsz => { src := clip, width := rsz.1, height := rsz.2 }

/-- `name_raw_sliced_sprites`: validates, defaults `spritecounts` to
`[width] * len(names)`, then builds the dict
`names[i] -> images[i*width : i*width + spritecounts[i]]` in order. A zero
`width` would make `len(images) // width` raise `ZeroDivisionError`. -/
def name_raw_sliced_sprites {α : Type} (images : List α) (names : List String)
    (width : Nat) (spritecounts : Option (List Nat)) :
    Except String (List (String × List α)) :=
  if width = 0 then .error "ZeroDivisionError"
  else if images.length / width < names.length then
    .error "Cannot have more names than rows of images."
  else
    let build : List Nat → List (String × List α) := fun counts =>
      names.enum.map fun p =>
        (p.2, ((images.drop (p.1 * width)).take (counts.getD p.1 0)))
    match spritecounts with
    | none => .ok (build (List.replicate names.length width))
    | some counts =>
      if counts.all (fun x => width < x) then
        .error "spritecounts cannot exceed the width of a row"
      else if counts.length < names.length then
        .error "Cannot have fewer spritecount values than names"
      else
        .ok (build counts)

/-! ### Association-list (Python dict) lemmas -/

theorem dictLookup_eq_none {β : Type} (d : List (String × β)) (k : String)
    (h : ∀ p ∈ d, p.1 ≠ k) : dictLookup d k = none := by
  induction d with
  | nil => rfl
  | cons a rest ih =>
    have hrest := ih fun p hp => h p (List.mem_cons_of_mem a hp)
    simp only [dictLookup, hrest]
    exact if_neg (h a (List.mem_cons_self a rest))

theorem dictLookup_mem {β : Type} {d : List (String × β)} {k : String} {v : β}
    (h : dictLookup d k = some v) : (k, v) ∈ d := by
  induction d with
  | nil => simp [dictLookup] at h
  | cons a rest ih =>
    obtain ⟨a1, a2⟩ := a
    simp only [dictLookup] at h
    cases hrest : dictLookup rest k with
    | some w =>
      rw [hrest] at h
      cases h
      exact List.mem_cons_of_mem _ (ih hrest)
    | none =>
      rw [hrest] at h
      by_cases hk : a1 = k
      · rw [if_pos hk] at h
        cases h
        subst hk
        exact List.mem_cons_self _ _
      · rw [if_neg hk] at h
        cases h

theorem dictLookup_of_nodup_mem {β : Type} (d : List (String × β)) (k : String)
    (v : β) (hnd : (d.map Prod.fst).Nodup) (hmem : (k, v) ∈ d) :
    dictLookup d k = some v := by
  induction d with
  | nil => cases hmem
  | cons a rest ih =>
    obtain ⟨a1, a2⟩ := a
    simp only [List.map_cons, List.nodup_cons] at hnd
    rcases List.mem_cons.mp hmem with heq | hmem2
    · cases heq
      have hnone : dictLookup rest k = none := by
        refine dictLookup_eq_none rest k fun p hp hpk => hnd.1 ?_
        exact hpk ▸ List.mem_map_of_mem Prod.fst hp
      simp [dictLookup, hnone]
    · have := ih hnd.2 hmem2
      simp [dictLookup, this]

/-! ### Claim C9: eager rejection of empty animation sequences -/

/-- C9: constructing an `Animator` fails with the "empty animation" error iff
some sequence of the supplied animation set has zero frames, regardless of the
other sequences and of the framerate (the check precedes the frame-period
division); the check is eager (it happens in `mkAnimator` itself) and on the
failing side no object is produced, while for any positive framerate and an
all-non-empty set the whole initial object is produced at once. -/
theorem mkAnimator_rejects_empty_animation {α : Type}
    (animations : List (String × List α)) (framerate : Nat) :
    (mkAnimator animations framerate
        = .error "all animations must have at least one frame"
      ↔ ∃ p ∈ animations, p.2 = [])
    ∧ (1 ≤ framerate → (∀ p ∈ animations, p.2 ≠ []) →
        mkAnimator animations framerate
          = .ok { animations := animations, current_animation := none,
                  playing := none, current_frame := 0, time_transpired := 0,
                  miliseconds_per_frame := 1000 / framerate }) := by
  have hcond : (animations.any fun p => p.2.length == 0) = true
      ↔ ∃ p ∈ animations, p.2 = [] := by
    simp [List.any_eq_true, List.length_eq_zero]
  constructor
  · constructor
    · intro h
      by_cases hany : (animations.any fun p => p.2.length == 0) = true
      · exact hcond.mp hany
      · rw [mkAnimator, if_neg hany] at h
        by_cases hfr : framerate = 0
        · rw [if_pos hfr] at h
          exact absurd (Except.error.inj h) (by decide)
        · rw [if_neg hfr] at h
          cases h
    · intro h
      rw [mkAnimator, if_pos (hcond.mpr h)]
  · intro hfr h
    have hany : ¬(animations.any fun p => p.2.length == 0) = true := by
      intro hc
      obtain ⟨p, hp, hp2⟩ := hcond.mp hc
      exact h p hp hp2
    rw [mkAnimator, if_neg hany, if_neg (Nat.pos_iff_ne_zero.mp hfr)]

/-- Witness for C9 at a concrete input: a set with a non-empty and an empty
sequence is rejected, and an all-non-empty set is constructed in full. -/
theorem mkAnimator_rejects_empty_animation_witness :
    (mkAnimator [("good", [1]), ("bad", ([] : List Nat))] 13
        = .error "all animations must have at least one frame")
    ∧ (mkAnimator [("x", [0, 1, 2, 3])] 10
        = .ok { animations := [("x", [0, 1, 2, 3])], current_animation := none,
                playing := none, current_frame := 0, time_transpired := 0,
                miliseconds_per_frame := 1000 / 10 }) :=
  ⟨(mkAnimator_rejects_empty_animation
      [("good", [1]), ("bad", ([] : List Nat))] 13).1.mpr
      ⟨("bad", []), by decide, rfl⟩,
   (mkAnimator_rejects_empty_animation [("x", [0, 1, 2, 3])] 10).2
      (by decide) (by decide)⟩

/-! ### Claim C8: the all-vs-any spritecount validation -/

/-- C8: with a supplied `spritecounts`, when the row-count validation passes
the "spritecounts cannot exceed the width of a row" error is raised exactly
when EVERY entry exceeds `width`; if at least one entry does not exceed it
(and there are enough entries for the names) the input is accepted and an
output mapping is produced. -/
theorem namer_spritecount_all_check {α : Type} (images : List α)
    (names : List String) (width : Nat) (counts : List Nat)
    (hw : 0 < width) (hrow : names.length ≤ images.length / width) :
    (name_raw_sliced_sprites images names width (some counts)
        = .error "spritecounts cannot exceed the width of a row"
      ↔ ∀ x ∈ counts, width < x)
    ∧ (names.length ≤ counts.length → (∃ x ∈ counts, x ≤ width) →
        ∃ anims, name_raw_sliced_sprites images names width (some counts)
          = .ok anims) := by
  have hw0 : ¬width = 0 := Nat.pos_iff_ne_zero.mp hw
  have hrow0 : ¬images.length / width < names.length := Nat.not_lt.mpr hrow
  have hcond : (counts.all fun x => width < x) = true ↔ ∀ x ∈ counts, width < x := by
    simp [List.all_eq_true]
  constructor
  · constructor
    · intro h
      by_cases hall : (counts.all fun x => width < x) = true
      · exact hcond.mp hall
      · rw [name_raw_sliced_sprites, if_neg hw0, if_neg hrow0] at h
        simp only [if_neg hall] at h
        by_cases hlen : counts.length < names.length
        · rw [if_pos hlen] at h
          exact absurd (Except.error.inj h) (by decide)
        · rw [if_neg hlen] at h
          cases h
    · intro h
      rw [name_raw_sliced_sprites, if_neg hw0, if_neg hrow0]
      simp only [if_pos (hcond.mpr h)]
  · intro hlen hex
    have hall : ¬(counts.all fun x => width < x) = true := by
      intro hc
      obtain ⟨x, hx, hxle⟩ := hex
      exact Nat.not_lt.mpr hxle (hcond.mp hc x hx)
    rw [name_raw_sliced_sprites, if_neg hw0, if_neg hrow0]
    simp only [if_neg hall, if_neg (Nat.not_lt.mpr hlen)]
    exact ⟨_, rfl⟩

/-- Witness for C8 at a concrete input: with `width = 3`, `counts = [5, 2]`
(one entry exceeding, one not) the input is accepted, and with
`counts = [5, 4]` (every entry exceeding) the specific error is raised. -/
theorem namer_spritecount_all_check_witness :
    name_raw_sliced_sprites [0, 1, 2, 3, 4, 5] ["a", "b"] 3 (some [5, 2])
      = .ok [("a", [0, 1, 2, 3, 4]), ("b", [3, 4])]
    ∧ name_raw_sliced_sprites [0, 1, 2, 3, 4, 5] ["a", "b"] 3 (some [5, 4])
      = .error "spritecounts cannot exceed the width of a row" := by
  have hok := (namer_spritecount_all_check [0, 1, 2, 3, 4, 5] ["a", "b"] 3
    [5, 2] (by decide) (by decide)).2 (by decide) ⟨2, by decide, by decide⟩
  obtain ⟨anims, ha⟩ := hok
  refine ⟨?_, (namer_spritecount_all_check [0, 1, 2, 3, 4, 5] ["a", "b"] 3
    [5, 4] (by decide) (by decide)).1.mpr (by decide)⟩
  have hval : anims = [("a", [0, 1, 2, 3, 4]), ("b", [3, 4])] :=
    Except.ok.inj (ha.symm.trans rfl)
  rw [hval] at ha
  exact ha

/-! ### Claim C7: row slicing of the Namer output -/

/-- C7: for any frames list, (duplicate-free) names list, `width` and a
`spritecounts` list that passes validation, the Namer returns a mapping with
exactly `len(names)` entries in which the sequence for `names[i]` is
`images[i*width : i*width + spritecounts[i]]`. -/
theorem namer_rows_mapping {α : Type} (images : List α) (names : List String)
    (width : Nat) (counts : List Nat) (anims : List (String × List α))
    (hnd : names.Nodup)
    (hok : name_raw_sliced_sprites images names width (some counts)
      = .ok anims) :
    anims.length = names.length
    ∧ ∀ i (hi : i < names.length),
        dictLookup anims (names.get ⟨i, hi⟩)
          = some ((images.drop (i * width)).take (counts.getD i 0)) := by
  rw [name_raw_sliced_sprites] at hok
  split at hok
  · cases hok
  · split at hok
    · cases hok
    · simp only at hok
      split at hok
      · cases hok
      · split at hok
        · cases hok
        · have hanims : anims = names.enum.map fun p =>
              (p.2, ((images.drop (p.1 * width)).take (counts.getD p.1 0))) :=
            (Except.ok.inj hok).symm
          subst hanims
          have hkeys : ((names.enum.map fun p =>
              (p.2, ((images.drop (p.1 * width)).take (counts.getD p.1 0)))).map
                Prod.fst) = names := by
            rw [List.map_map]
            have : (Prod.fst ∘ fun p : Nat × String =>
                (p.2, ((images.drop (p.1 * width)).take (counts.getD p.1 0))))
                = Prod.snd := by
              funext p
              rfl
            rw [this, List.enum_map_snd]
          constructor
          · simp [List.enum_length]
          · intro i hi
            have hi2 : i < (names.enum.map fun p =>
                (p.2, ((images.drop (p.1 * width)).take
                  (counts.getD p.1 0)))).length := by
              simpa [List.enum_length] using hi
            refine dictLookup_of_nodup_mem _ _ _ (by rw [hkeys]; exact hnd) ?_
            have hget : (names.enum.map fun p =>
                (p.2, ((images.drop (p.1 * width)).take
                  (counts.getD p.1 0))))[i]
                = (names.get ⟨i, hi⟩,
                    ((images.drop (i * width)).take (counts.getD i 0))) := by
              rw [List.getElem_map, List.getElem_enum]
              simp [List.get_eq_getElem]
            exact hget ▸ List.getElem_mem hi2

/-- Witness for C7 at the concrete input of the spec: `names = [a, b]`,
`width = 3`, `spritecounts = [2, 3]`, frames `[0..5]` give the mapping
`a -> [0, 1]`, `b -> [3, 4, 5]` with exactly two entries. -/
theorem namer_rows_mapping_witness :
    name_raw_sliced_sprites [0, 1, 2, 3, 4, 5] ["a", "b"] 3 (some [2, 3])
      = .ok [("a", [0, 1]), ("b", [3, 4, 5])]
    ∧ dictLookup [("a", [0, 1]), ("b", [3, 4, 5])] "a" = some [0, 1]
    ∧ dictLookup [("a", [0, 1]), ("b", [3, 4, 5])] "b" = some [3, 4, 5]
    ∧ ([("a", [0, 1]), ("b", [3, 4, 5])] : List (String × List Nat)).length
        = 2 := by
  have hok : name_raw_sliced_sprites [0, 1, 2, 3, 4, 5] ["a", "b"] 3
      (some [2, 3]) = .ok [("a", [0, 1]), ("b", [3, 4, 5])] := rfl
  have h := namer_rows_mapping [0, 1, 2, 3, 4, 5] ["a", "b"] 3 [2, 3]
    [("a", [0, 1]), ("b", [3, 4, 5])] (by decide) hok
  refine ⟨hok, ?_, ?_, h.1⟩
  · simpa using h.2 0 (by decide)
  · simpa using h.2 1 (by decide)

/-! ### Animator lemmas and claims C1, C2, C3 -/

theorem isEmpty_false_of_ne_nil {α : Type} {l : List α} (h : l ≠ []) :
    l.isEmpty = false := by
  simp [List.isEmpty_iff, h]

/-- C1: in the playing state with a non-empty sequence, when the accumulated
time (after adding the delta) reaches the frame period, `update` advances the
index by `accumulated / period` modulo the sequence length in one step, keeps
`accumulated % period`, and returns the frame at the new index; in particular
the 4-frame, 100 ms example advances through indices 2, 2, 0 with remainders
50, 90, 0 under `update 250`, `update 40`, `update 110` after `play "x"`. -/
theorem animator_update_single_step_advance {α : Type} (a : Animator α)
    (frames : List α) (d : Nat)
    (hp : a.playing = some frames) (hne : frames ≠ [])
    (hmpf : 1 ≤ a.miliseconds_per_frame)
    (hadv : a.miliseconds_per_frame ≤ a.time_transpired + d) :
    a.update d
      = .ok (frames.get? ((a.current_frame
            + (a.time_transpired + d) / a.miliseconds_per_frame)
          % frames.length),
        { a with
          time_transpired := (a.time_transpired + d) % a.miliseconds_per_frame
          current_frame := (a.current_frame
              + (a.time_transpired + d) / a.miliseconds_per_frame)
            % frames.length })
    ∧ (frames.get? ((a.current_frame
          + (a.time_transpired + d) / a.miliseconds_per_frame)
        % frames.length)).isSome = true
    ∧ (a.time_transpired + d) % a.miliseconds_per_frame
        < a.miliseconds_per_frame
    ∧ ∃ b0 b1 b2 b3 : Animator Nat,
        (mkAnimator [("x", [0, 1, 2, 3])] 10).bind
            (fun b => b.play (some "x")) = .ok b0
        ∧ b0.update 250 = .ok (some 2, b1)
          ∧ b1.current_frame = 2 ∧ b1.time_transpired = 50
        ∧ b1.update 40 = .ok (some 2, b2)
          ∧ b2.current_frame = 2 ∧ b2.time_transpired = 90
        ∧ b2.update 110 = .ok (some 0, b3)
          ∧ b3.current_frame = 0 ∧ b3.time_transpired = 0 := by
  have hlen : 0 < frames.length := List.length_pos.mpr hne
  have hmpf0 : a.miliseconds_per_frame ≠ 0 := Nat.pos_iff_ne_zero.mp hmpf
  have hidx : (a.current_frame
        + (a.time_transpired + d) / a.miliseconds_per_frame)
      % frames.length < frames.length := Nat.mod_lt _ hlen
  have hget := List.get?_eq_get hidx
  refine ⟨?_, by rw [hget]; rfl, Nat.mod_lt _ hmpf,
    ⟨⟨[("x", [0, 1, 2, 3])], some "x", some [0, 1, 2, 3], 0, 0, 100⟩,
     ⟨[("x", [0, 1, 2, 3])], some "x", some [0, 1, 2, 3], 2, 50, 100⟩,
     ⟨[("x", [0, 1, 2, 3])], some "x", some [0, 1, 2, 3], 2, 90, 100⟩,
     ⟨[("x", [0, 1, 2, 3])], some "x", some [0, 1, 2, 3], 0, 0, 100⟩,
     rfl, rfl, rfl, rfl, rfl, rfl, rfl, rfl, rfl, rfl⟩⟩
  simp only [Animator.update, hp, isEmpty_false_of_ne_nil hne,
    Bool.false_eq_true, if_false, if_pos hadv, if_neg hmpf0, hget]

/-- Witness for C1: the first `update 250` of the example applied through the
theorem itself. -/
theorem animator_update_single_step_advance_witness :
    Animator.update
        ⟨[("x", [0, 1, 2, 3])], some "x", some [0, 1, 2, 3], 0, 0, 100⟩ 250
      = .ok (some 2,
          ⟨[("x", [0, 1, 2, 3])], some "x", some [0, 1, 2, 3], 2, 50, 100⟩) := by
  have h := animator_update_single_step_advance (α := Nat)
    ⟨[("x", [0, 1, 2, 3])], some "x", some [0, 1, 2, 3], 0, 0, 100⟩
    [0, 1, 2, 3] 250 rfl (by decide) (by decide) (by decide)
  rw [h.1]
  rfl

/-- C2: `play` with a known name equal to the one already playing changes
nothing at all (in particular neither the frame index nor the accumulated
time), while `play` with a known name different from the current one (or when
none is current) selects it and resets the frame index and accumulated time
to 0. -/
theorem animator_play_idempotent_or_reset {α : Type} (a : Animator α)
    (nm : String) (frames : List α)
    (hk : dictLookup a.animations nm = some frames) :
    (a.current_animation = some nm → a.play (some nm) = .ok a)
    ∧ (a.current_animation ≠ some nm →
        a.play (some nm)
          = .ok { a with
                  current_animation := some nm
                  playing := some frames
                  current_frame := 0
                  time_transpired := 0 }) := by
  constructor
  · intro h
    simp only [Animator.play, hk, if_pos h]
  · intro h
    simp only [Animator.play, hk, if_neg h]

/-- Witness for C2: replaying "x" twice keeps the advanced frame index and
accumulator; playing "y" then "x" resets them. -/
theorem animator_play_idempotent_or_reset_witness :
    (Animator.play
        ⟨[("x", [0, 1]), ("y", [2, 3])], some "x", some [0, 1], 1, 30, 100⟩
        (some "x")
      = .ok ⟨[("x", [0, 1]), ("y", [2, 3])], some "x", some [0, 1], 1, 30, 100⟩)
    ∧ (Animator.play
        ⟨[("x", [0, 1]), ("y", [2, 3])], some "y", some [2, 3], 1, 30, 100⟩
        (some "x")
      = .ok ⟨[("x", [0, 1]), ("y", [2, 3])], some "x", some [0, 1], 0, 0, 100⟩) :=
  ⟨(animator_play_idempotent_or_reset
      ⟨[("x", [0, 1]), ("y", [2, 3])], some "x", some [0, 1], 1, 30, 100⟩
      "x" [0, 1] rfl).1 rfl,
   (animator_play_idempotent_or_reset
      ⟨[("x", [0, 1]), ("y", [2, 3])], some "y", some [2, 3], 1, 30, 100⟩
      "x" [0, 1] rfl).2 (by decide)⟩

/-- C3 counterexample: `play None` does NOT clear the frame index or the
accumulated time. After playing "x" and updating by 130 ms (index 1,
accumulator 30), `play None` leaves index 1 and accumulator 30 in place, so
the claim that it resets them to zero fails at this input. -/
theorem animator_play_none_preserves_counters :
    (mkAnimator [("x", [10, 20])] 10).bind (fun b => b.play (some "x"))
        = .ok ⟨[("x", [10, 20])], some "x", some [10, 20], 0, 0, 100⟩
    ∧ Animator.update
        (⟨[("x", [10, 20])], some "x", some [10, 20], 0, 0, 100⟩ :
          Animator Nat) 130
      = .ok (some 20, ⟨[("x", [10, 20])], some "x", some [10, 20], 1, 30, 100⟩)
    ∧ Animator.play
        (⟨[("x", [10, 20])], some "x", some [10, 20], 1, 30, 100⟩ :
          Animator Nat) none
      = .ok ⟨[("x", [10, 20])], none, none, 1, 30, 100⟩
    ∧ (⟨[("x", [10, 20])], none, none, 1, 30, 100⟩ :
        Animator Nat).playing = none
    ∧ (⟨[("x", [10, 20])], none, none, 1, 30, 100⟩ :
        Animator Nat).current_animation = none
    ∧ (⟨[("x", [10, 20])], none, none, 1, 30, 100⟩ :
        Animator Nat).current_frame = 1
    ∧ (⟨[("x", [10, 20])], none, none, 1, 30, 100⟩ :
        Animator Nat).time_transpired = 30
    ∧ ¬((⟨[("x", [10, 20])], none, none, 1, 30, 100⟩ :
          Animator Nat).current_frame = 0
        ∧ (⟨[("x", [10, 20])], none, none, 1, 30, 100⟩ :
            Animator Nat).time_transpired = 0) :=
  ⟨rfl, rfl, rfl, rfl, rfl, rfl, rfl, by decide⟩

/-- C3 as amended: `play None` transitions to the idle state by clearing only
the current selection (both the playing sequence and the current animation
name become `None`) while the frame index and accumulated time stay frozen at
their previous values; every subsequent `update` then returns no frame and
changes nothing, until `play` is called again with a valid animation name,
which selects that sequence and resets the frame index and accumulated time
to 0, after which `update` returns frames again. -/
theorem animator_play_none_idles {α : Type} (a : Animator α) :
    a.play none = .ok { a with playing := none, current_animation := none }
    ∧ (∀ d, Animator.update
          { a with playing := none, current_animation := none } d
        = .ok (none, { a with playing := none, current_animation := none }))
    ∧ (∀ nm frames, dictLookup a.animations nm = some frames → frames ≠ [] →
        1 ≤ a.miliseconds_per_frame →
        ∃ b, Animator.play
            { a with playing := none, current_animation := none } (some nm)
          = .ok b
        ∧ b.current_frame = 0 ∧ b.time_transpired = 0
        ∧ b.playing = some frames
        ∧ ∀ d, ∃ f st, b.update d = .ok (some f, st)) := by
  refine ⟨rfl, fun d => rfl, fun nm frames hk hne hmpf => ?_⟩
  refine ⟨{ a with
            current_animation := some nm
            playing := some frames
            current_frame := 0
            time_transpired := 0 }, ?_, rfl, rfl, rfl, ?_⟩
  · simp only [Animator.play, hk]
    rw [if_neg (by simp)]
  · intro d
    have hlen : 0 < frames.length := List.length_pos.mpr hne
    have hmpf0 : a.miliseconds_per_frame ≠ 0 := Nat.pos_iff_ne_zero.mp hmpf
    by_cases hadv : a.miliseconds_per_frame ≤ 0 + d
    · have hidx : (0 + (0 + d) / a.miliseconds_per_frame) % frames.length
          < frames.length := Nat.mod_lt _ hlen
      refine ⟨frames.get ⟨_, hidx⟩,
        { a with
          current_animation := some nm
          playing := some frames
          current_frame :=
            (0 + (0 + d) / a.miliseconds_per_frame) % frames.length
          time_transpired := (0 + d) % a.miliseconds_per_frame }, ?_⟩
      simp only [Animator.update, isEmpty_false_of_ne_nil hne,
        Bool.false_eq_true, if_false]
      rw [if_pos (by simpa using hadv), if_neg hmpf0,
        List.get?_eq_get hidx]
    · have hidx : (0 : Nat) < frames.length := hlen
      refine ⟨frames.get ⟨0, hidx⟩,
        { a with
          current_animation := some nm
          playing := some frames
          current_frame := 0
          time_transpired := 0 + d }, ?_⟩
      simp only [Animator.update, isEmpty_false_of_ne_nil hne,
        Bool.false_eq_true, if_false]
      rw [if_neg (by simpa using hadv), List.get?_eq_get hidx]

/-- Witness for C3 (amended): the concrete idle-then-replay scenario. -/
theorem animator_play_none_idles_witness :
    Animator.play
        (⟨[("x", [10, 20])], some "x", some [10, 20], 1, 30, 100⟩ :
          Animator Nat) none
      = .ok ⟨[("x", [10, 20])], none, none, 1, 30, 100⟩
    ∧ Animator.update
        (⟨[("x", [10, 20])], none, none, 1, 30, 100⟩ : Animator Nat) 40
      = .ok (none, ⟨[("x", [10, 20])], none, none, 1, 30, 100⟩)
    ∧ Animator.play
        (⟨[("x", [10, 20])], none, none, 1, 30, 100⟩ : Animator Nat)
        (some "x")
      = .ok ⟨[("x", [10, 20])], some "x", some [10, 20], 0, 0, 100⟩ := by
  have h := animator_play_none_idles
    (α := Nat) ⟨[("x", [10, 20])], some "x", some [10, 20], 1, 30, 100⟩
  refine ⟨h.1, h.2.1 40, ?_⟩
  obtain ⟨b, hb, hcf, htt, hpl, hupd⟩ :=
    h.2.2 "x" [10, 20] rfl (by decide) (by decide)
  have hbl : b
      = (⟨[("x", [10, 20])], some "x", some [10, 20], 0, 0, 100⟩ :
          Animator Nat) :=
    Except.ok.inj (hb.symm.trans rfl)
  rw [hbl] at hb
  exact hb

/-! ### Claim C10: division and indexing safety of the animator -/

theorem Animator.play_ok_WF {α : Type} {a b : Animator α} (h : a.WF)
    (nm : Option String) (hb : a.play nm = .ok b) : b.WF := by
  cases nm with
  | none =>
    simp only [Animator.play] at hb
    cases hb
    exact ⟨h.1, h.2.1, fun frames hf => nomatch hf⟩
  | some nm =>
    cases hlk : dictLookup a.animations nm with
    | none =>
      simp only [Animator.play, hlk] at hb
      cases hb
    | some frames =>
      simp only [Animator.play, hlk] at hb
      by_cases hc : a.current_animation = some nm
      · rw [if_pos hc] at hb
        cases hb
        exact h
      · rw [if_neg hc] at hb
        cases hb
        have hne : frames ≠ [] := h.2.1 _ (dictLookup_mem hlk)
        refine ⟨h.1, h.2.1, fun fr hfr => ?_⟩
        have hfr2 : some frames = some fr := hfr
        cases hfr2
        exact ⟨hne, List.length_pos.mpr hne⟩

theorem Animator.update_ok_WF {α : Type} {a : Animator α} (h : a.WF)
    (d : Nat) : ∃ f b, a.update d = .ok (f, b) ∧ b.WF := by
  cases hplay : a.playing with
  | none => exact ⟨none, a, by simp [Animator.update, hplay], h⟩
  | some frames =>
    obtain ⟨hne, hcf⟩ := h.2.2 frames hplay
    have hlen := List.length_pos.mpr hne
    have hmpf0 : a.miliseconds_per_frame ≠ 0 := Nat.pos_iff_ne_zero.mp h.1
    by_cases hadv : a.miliseconds_per_frame ≤ a.time_transpired + d
    · have hidx : (a.current_frame
            + (a.time_transpired + d) / a.miliseconds_per_frame)
          % frames.length < frames.length := Nat.mod_lt _ hlen
      refine ⟨some (frames.get ⟨_, hidx⟩),
        { a with
          current_frame :=
            (a.current_frame
                + (a.time_transpired + d) / a.miliseconds_per_frame)
              % frames.length
          time_transpired :=
            (a.time_transpired + d) % a.miliseconds_per_frame }, ?_, ?_⟩
      · simp only [Animator.update, hplay, isEmpty_false_of_ne_nil hne,
          Bool.false_eq_true, if_false]
        rw [if_pos hadv, if_neg hmpf0, List.get?_eq_get hidx]
      · refine ⟨h.1, h.2.1, fun fr hfr => ?_⟩
        have hfr2 : some frames = some fr := hplay.symm.trans hfr
        cases hfr2
        exact ⟨hne, hidx⟩
    · refine ⟨some (frames.get ⟨a.current_frame, hcf⟩),
        { a with time_transpired := a.time_transpired + d }, ?_, ?_⟩
      · simp only [Animator.update, hplay, isEmpty_false_of_ne_nil hne,
          Bool.false_eq_true, if_false]
        rw [if_neg hadv, List.get?_eq_get hcf]
      · refine ⟨h.1, h.2.1, fun fr hfr => ?_⟩
        have hfr2 : some frames = some fr := hplay.symm.trans hfr
        cases hfr2
        exact ⟨hne, hcf⟩

theorem Animator.reachable_WF {α : Type} {a b : Animator α} (h : a.WF)
    (hr : Animator.Reachable a b) : b.WF := by
  induction hr with
  | refl => exact h
  | play_step c c2 nm hr hok ih => exact Animator.play_ok_WF ih nm hok
  | update_step c c2 d f hr hok ih =>
    obtain ⟨f2, b2, heq, hwf⟩ := Animator.update_ok_WF ih d
    have h2 := Except.ok.inj (hok.symm.trans heq)
    have hb2 : c2 = b2 := congrArg Prod.snd h2
    rw [hb2]
    exact hwf

/-- C10: when an `Animator` is constructed with a framerate between 1 and
1000, its frame period `1000 // framerate` is at least 1, and in every state
reachable through `play`/`update` the frame index stays within the selected
sequence and `update` always succeeds (no division or modulus by zero, no
out-of-bounds frame access); with a framerate above 1000 the frame period is
0 and this guarantee is lost. -/
theorem animator_no_division_and_index_safe {α : Type}
    (animations : List (String × List α)) (fr : Nat) (a : Animator α)
    (hmk : mkAnimator animations fr = .ok a) :
    ((1 ≤ fr ∧ fr ≤ 1000) →
      1 ≤ a.miliseconds_per_frame
      ∧ ∀ b, Animator.Reachable a b →
          (∀ frames, b.playing = some frames →
              frames ≠ [] ∧ b.current_frame < frames.length)
          ∧ ∀ d, ∃ f c, b.update d = .ok (f, c))
    ∧ (1000 < fr → a.miliseconds_per_frame = 0) := by
  have hnotany : ¬(animations.any fun p => p.2.length == 0) = true := by
    intro hc
    rw [mkAnimator, if_pos hc] at hmk
    cases hmk
  rw [mkAnimator, if_neg hnotany] at hmk
  have hfr0 : fr ≠ 0 := by
    intro h0
    rw [if_pos h0] at hmk
    cases hmk
  rw [if_neg hfr0] at hmk
  have ha := (Except.ok.inj hmk).symm
  have hnonempty : ∀ p ∈ animations, p.2 ≠ [] := by
    intro p hp hp2
    exact hnotany (List.any_eq_true.mpr ⟨p, hp, by simp [hp2]⟩)
  constructor
  · rintro ⟨hfr1, hfr2⟩
    have hmpf : 1 ≤ a.miliseconds_per_frame := by
      rw [ha]
      exact (Nat.one_le_div_iff (Nat.lt_of_lt_of_le Nat.zero_lt_one hfr1)).mpr
        hfr2
    have hwf : a.WF := by
      rw [ha]
      exact ⟨by rw [ha] at hmpf; exact hmpf, hnonempty, fun fr hf => nomatch hf⟩
    refine ⟨hmpf, fun b hr => ?_⟩
    have hbwf := Animator.reachable_WF hwf hr
    refine ⟨hbwf.2.2, fun d => ?_⟩
    obtain ⟨f, c, heq, _⟩ := Animator.update_ok_WF hbwf d
    exact ⟨f, c, heq⟩
  · intro hfr
    rw [ha]
    exact Nat.div_eq_of_lt hfr

/-- Witness for C10: at framerate 13 the period is 76 ≥ 1 and a concrete
update succeeds; at framerate 2000 the period is 0. -/
theorem animator_no_division_and_index_safe_witness :
    1 ≤ (⟨[("x", [0, 1])], none, none, 0, 0, 76⟩ :
        Animator Nat).miliseconds_per_frame
    ∧ Animator.update
        (⟨[("x", [0, 1])], none, none, 0, 0, 76⟩ : Animator Nat) 5
      = .ok (none, ⟨[("x", [0, 1])], none, none, 0, 0, 76⟩)
    ∧ (⟨[("x", [0, 1])], none, none, 0, 0, 0⟩ :
        Animator Nat).miliseconds_per_frame = 0 := by
  have h := animator_no_division_and_index_safe [("x", [0, 1])] 13
    ⟨[("x", [0, 1])], none, none, 0, 0, 76⟩ rfl
  have h1 := h.1 ⟨by decide, by decide⟩
  obtain ⟨f, c, hfc⟩ := (h1.2 _ (Animator.Reachable.refl _)).2 5
  have h2 := animator_no_division_and_index_safe (α := Nat) [("x", [0, 1])]
    2000 ⟨[("x", [0, 1])], none, none, 0, 0, 0⟩ rfl
  have hval : ((f, c) : Option Nat × Animator Nat)
      = (none, ⟨[("x", [0, 1])], none, none, 0, 0, 76⟩) :=
    Except.ok.inj (hfc.symm.trans rfl)
  rw [hval] at hfc
  exact ⟨h1.1, hfc, h2.2 (by decide)⟩

/-! ### Player lemmas and claims C4, C5, C6 -/

/-- C4 (code bug): slicing a 4×2 sheet with frameSize (2, 1) — width 2,
height 1 — zero offset and zero padding. The source builds each clip rect as
`Rect(col, row, height, width)`, swapping width and height (and pygame clips
the rect to the sheet), so the four returned sub-images have sizes
(1,2), (1,2), (1,1), (1,1): none has the requested frame size (2, 1), even
though the frame count (H/M)*(W/N) = 4 and the row-major traversal match the
claim. -/
theorem slice_sprites_swapped_frame_size :
    (slice_sprites 4 2 (2, 1) none (0, 0) 0).map
        (List.map fun s => (s.width, s.height))
      = .ok [(1, 2), (1, 2), (1, 1), (1, 1)]
    ∧ ((1, 2) : Nat × Nat) ≠ (2, 1)
    ∧ ((1, 1) : Nat × Nat) ≠ (2, 1)
    ∧ (slice_sprites 4 2 (2, 1) none (0, 0) 0).map List.length = .ok 4 :=
  ⟨rfl, by decide, by decide, rfl⟩

theorem exceptBind_ok {ε A B : Type} {x : Except ε A} {f : A → Except ε B}
    {b : B} (h : x.bind f = .ok b) : ∃ a, x = .ok a ∧ f a = .ok b := by
  cases x with
  | error e => simp [Except.bind] at h
  | ok a => exact ⟨a, rfl, h⟩

theorem play_ok_current {α : Type} {a b : Animator α} {nm : String}
    (h : a.play (some nm) = .ok b) : b.current_animation = some nm := by
  cases hlk : dictLookup a.animations nm with
  | none =>
    simp only [Animator.play, hlk] at h
    cases h
  | some frames =>
    simp only [Animator.play, hlk] at h
    by_cases hc : a.current_animation = some nm
    · rw [if_pos hc] at h
      cases h
      exact hc
    · rw [if_neg hc] at h
      cases h
      rfl

theorem playOn_ok {α : Type} {p q : Player α} {nm : String}
    (h : playOn p nm = .ok q) :
    q.x = p.x ∧ q.y = p.y ∧ q.speed = p.speed ∧ q.facing = p.facing
    ∧ ∃ anim2, q.animator = some anim2
        ∧ anim2.current_animation = some nm := by
  cases han : p.animator with
  | none =>
    simp only [playOn, han] at h
    cases h
  | some anim =>
    simp only [playOn, han] at h
    cases hp : anim.play (some nm) with
    | error e =>
      rw [hp] at h
      cases h
    | ok anim2 =>
      rw [hp] at h
      cases h
      exact ⟨rfl, rfl, rfl, rfl, anim2, rfl, play_ok_current hp⟩

theorem gameObjectUpdate_ok {α : Type} {p q : Player α} {t : Nat}
    (h : gameObjectUpdate p t = .ok q) :
    q.x = p.x ∧ q.y = p.y ∧ q.speed = p.speed ∧ q.facing = p.facing := by
  cases han : p.animator with
  | none =>
    simp only [gameObjectUpdate, han] at h
    cases h
    exact ⟨rfl, rfl, rfl, rfl⟩
  | some anim =>
    simp only [gameObjectUpdate, han] at h
    by_cases hpl : playingTruthy anim.playing = true
    · rw [if_pos hpl] at h
      cases hu : anim.update t with
      | error e =>
        rw [hu] at h
        cases h
      | ok r =>
        obtain ⟨img, anim2⟩ := r
        rw [hu] at h
        cases h
        exact ⟨rfl, rfl, rfl, rfl⟩
    · rw [if_neg hpl] at h
      cases h
      exact ⟨rfl, rfl, rfl, rfl⟩

theorem moveStep_ok {α : Type} {b : Bool} {pu r : Player α} {nm : String}
    {f : Directions} {mx my : Int}
    (h : (if b then playOn { pu with x := mx, y := my, facing := f } nm
        else .ok pu) = .ok r) :
    r.x = (if b = true then mx else pu.x)
    ∧ r.y = (if b = true then my else pu.y)
    ∧ r.speed = pu.speed
    ∧ (b = false → r = pu)
    ∧ (b = true → r.facing = f
        ∧ ∃ anim, r.animator = some anim
            ∧ anim.current_animation = some nm) := by
  cases b
  · have hr : r = pu := (Except.ok.inj h).symm
    subst hr
    exact ⟨by simp, by simp, rfl, fun _ => rfl, fun hc => nomatch hc⟩
  · obtain ⟨hx, hy, hs, hf, anim2, han, hcur⟩ := playOn_ok h
    refine ⟨by simpa using hx, by simpa using hy, hs, ?_, ?_⟩
    · intro hc
      cases hc
    · intro _
      exact ⟨hf, anim2, han, hcur⟩

/-- Characterization of a successful `Player.update`: each held key
contributes its floor movement delta independently, and the facing and
requested animation are decided by the last held key in the source check
order `K_a` (west), `K_d` (east), `K_w` (north), `K_s` (south). -/
theorem playerUpdateSpec {α : Type} {p q : Player α} {t : Nat}
    {k : KeysPressed} (h : Player.update p t k = .ok q) :
    q.x = p.x + (if k.k_d = true then (((p.speed * t) / 1000 : Nat) : Int)
          else 0)
        - (if k.k_a = true then (((p.speed * t) / 1000 : Nat) : Int) else 0)
    ∧ q.y = p.y + (if k.k_s = true then (((p.speed * t) / 1000 : Nat) : Int)
          else 0)
        - (if k.k_w = true then (((p.speed * t) / 1000 : Nat) : Int) else 0)
    ∧ q.speed = p.speed
    ∧ (k.k_s = true → q.facing = .SOUTH
        ∧ ∃ anim, q.animator = some anim
            ∧ anim.current_animation = some "walk_down")
    ∧ (k.k_s = false → k.k_w = true → q.facing = .NORTH
        ∧ ∃ anim, q.animator = some anim
            ∧ anim.current_animation = some "walk_up")
    ∧ (k.k_s = false → k.k_w = false → k.k_d = true → q.facing = .EAST
        ∧ ∃ anim, q.animator = some anim
            ∧ anim.current_animation = some "walk_right")
    ∧ (k.k_s = false → k.k_w = false → k.k_d = false → k.k_a = true →
        q.facing = .WEST
        ∧ ∃ anim, q.animator = some anim
            ∧ anim.current_animation = some "walk_left") := by
  simp only [Player.update] at h
  obtain ⟨p1, hgu, h⟩ := exceptBind_ok h
  obtain ⟨p2, h2, h⟩ := exceptBind_ok h
  obtain ⟨p3, h3, h⟩ := exceptBind_ok h
  obtain ⟨p4, h4, h5⟩ := exceptBind_ok h
  obtain ⟨hgx, hgy, hgs, hgf⟩ := gameObjectUpdate_ok hgu
  have s1 := moveStep_ok h2
  have s2 := moveStep_ok h3
  have s3 := moveStep_ok h4
  have s4 := moveStep_ok h5
  refine ⟨?_, ?_, ?_, ?_, ?_, ?_, ?_⟩
  · have hx4 : q.x = p4.x := by simpa using s4.1
    have hx3 : p4.x = p3.x := by simpa using s3.1
    rw [hx4, hx3, s2.1, s1.1, hgx, hgs]
    by_cases hd : k.k_d = true <;> by_cases ha2 : k.k_a = true <;>
      simp [hd, ha2]
  · have hy1 : p2.y = p1.y := by simpa using s1.2.1
    have hy2 : p3.y = p2.y := by simpa using s2.2.1
    rw [s4.2.1, s3.2.1, hy2, hy1, hgy, hgs]
    by_cases hs : k.k_s = true <;> by_cases hw : k.k_w = true <;>
      simp [hs, hw]
  · rw [s4.2.2.1, s3.2.2.1, s2.2.2.1, s1.2.2.1, hgs]
  · intro hks
    exact s4.2.2.2.2 hks
  · intro hks hkw
    rw [s4.2.2.2.1 hks]
    exact s3.2.2.2.2 hkw
  · intro hks hkw hkd
    rw [s4.2.2.2.1 hks, s3.2.2.2.1 hkw]
    exact s2.2.2.2.2 hkd
  · intro hks hkw hkd hka
    rw [s4.2.2.2.1 hks, s3.2.2.2.1 hkw, s2.2.2.2.1 hkd]
    exact s1.2.2.2.2 hka

/-- C5 counterexample: with the player speed 250 and `timeDelta = 7`, the
claimed delta `round(250 * 7 / 1000) = round(1.75) = 2` would put the player
at x = 148, but the code computes `(250 * 7) // 1000 = 1` and leaves it at
x = 149. -/
theorem player_update_round_counterexample :
    (playerEx.update 7 ⟨true, false, false, false⟩ = .ok playerExWest7
      ∧ playerExWest7.x = 149)
    ∧ (150 : Int) - round ((250 * 7 : ℚ) / 1000) = 148
    ∧ (149 : Int) ≠ 148 := by
  refine ⟨⟨rfl, rfl⟩, ?_, by decide⟩
  have h2 : round ((250 * 7 : ℚ) / 1000) = 2 := by
    have h74 : ((250 * 7 : ℚ) / 1000) = 7 / 4 := by norm_num
    rw [h74, round_eq]
    have h94 : (7 / 4 + 1 / 2 : ℚ) = 9 / 4 := by norm_num
    rw [h94]
    have hfl : ⌊(9 / 4 : ℚ)⌋ = 2 := by
      rw [Int.floor_eq_iff]
      constructor <;> norm_num
    exact hfl
  rw [h2]
  decide

/-- C5 as amended (the positional delta is `(speed * timeDelta) // 1000`,
floor division, not `round`): for every key combination, each held cardinal
key independently contributes that delta along its own axis; holding exactly
one cardinal key sets the facing and the requested animation to that
direction's walk animation, and whenever at least one key is held the final
facing and animation are those of one of the held keys; in particular with
`timeDelta = 76` and only the west key held the concrete player moves
`(250 * 76) // 1000 = 19` pixels west and faces WEST. -/
theorem player_update_moves_floor_delta {α : Type} (p q : Player α) (t : Nat)
    (k : KeysPressed) (h : Player.update p t k = .ok q) :
    q.x = p.x
        + (if k.k_d = true then (((p.speed * t) / 1000 : Nat) : Int) else 0)
        - (if k.k_a = true then (((p.speed * t) / 1000 : Nat) : Int) else 0)
    ∧ q.y = p.y
        + (if k.k_s = true then (((p.speed * t) / 1000 : Nat) : Int) else 0)
        - (if k.k_w = true then (((p.speed * t) / 1000 : Nat) : Int) else 0)
    ∧ (k = ⟨true, false, false, false⟩ → q.facing = .WEST
        ∧ ∃ anim, q.animator = some anim
            ∧ anim.current_animation = some "walk_left")
    ∧ (k = ⟨false, true, false, false⟩ → q.facing = .EAST
        ∧ ∃ anim, q.animator = some anim
            ∧ anim.current_animation = some "walk_right")
    ∧ (k = ⟨false, false, true, false⟩ → q.facing = .NORTH
        ∧ ∃ anim, q.animator = some anim
            ∧ anim.current_animation = some "walk_up")
    ∧ (k = ⟨false, false, false, true⟩ → q.facing = .SOUTH
        ∧ ∃ anim, q.animator = some anim
            ∧ anim.current_animation = some "walk_down")
    ∧ ((k.k_a = true ∨ k.k_d = true ∨ k.k_w = true ∨ k.k_s = true) →
        (k.k_a = true ∧ q.facing = .WEST
          ∧ ∃ anim, q.animator = some anim
              ∧ anim.current_animation = some "walk_left")
        ∨ (k.k_d = true ∧ q.facing = .EAST
          ∧ ∃ anim, q.animator = some anim
              ∧ anim.current_animation = some "walk_right")
        ∨ (k.k_w = true ∧ q.facing = .NORTH
          ∧ ∃ anim, q.animator = some anim
              ∧ anim.current_animation = some "walk_up")
        ∨ (k.k_s = true ∧ q.facing = .SOUTH
          ∧ ∃ anim, q.animator = some anim
              ∧ anim.current_animation = some "walk_down"))
    ∧ (playerEx.update 76 ⟨true, false, false, false⟩ = .ok playerExWest76
        ∧ playerExWest76.x = 150 - (((250 * 76) / 1000 : Nat) : Int)
        ∧ playerExWest76.facing = .WEST) := by
  have hs := playerUpdateSpec h
  refine ⟨hs.1, hs.2.1, ?_, ?_, ?_, ?_, ?_, rfl, by decide, rfl⟩
  · rintro rfl
    exact hs.2.2.2.2.2.2 rfl rfl rfl rfl
  · rintro rfl
    exact hs.2.2.2.2.2.1 rfl rfl rfl
  · rintro rfl
    exact hs.2.2.2.2.1 rfl rfl
  · rintro rfl
    exact hs.2.2.2.1 rfl
  · intro hheld
    cases hks : k.k_s with
    | true => exact Or.inr (Or.inr (Or.inr ⟨rfl, hs.2.2.2.1 hks⟩))
    | false =>
      cases hkw : k.k_w with
      | true => exact Or.inr (Or.inr (Or.inl ⟨rfl, hs.2.2.2.2.1 hks hkw⟩))
      | false =>
        cases hkd : k.k_d with
        | true => exact Or.inr (Or.inl ⟨rfl, hs.2.2.2.2.2.1 hks hkw hkd⟩)
        | false =>
          cases hka : k.k_a with
          | true => exact Or.inl ⟨rfl, hs.2.2.2.2.2.2 hks hkw hkd hka⟩
          | false =>
            rw [hka, hkd, hkw, hks] at hheld
            simp at hheld

/-- Witness for C5 (amended) at the concrete spec scenario `timeDelta = 76`
with only the west key held. -/
theorem player_update_moves_floor_delta_witness :
    playerExWest76.x
      = playerEx.x - (((playerEx.speed * 76) / 1000 : Nat) : Int)
    ∧ playerExWest76.y = playerEx.y
    ∧ playerExWest76.facing = Directions.WEST := by
  have h := player_update_moves_floor_delta playerEx playerExWest76 76
    ⟨true, false, false, false⟩ rfl
  refine ⟨?_, ?_, (h.2.2.1 rfl).1⟩
  · have hx := h.1
    simp at hx
    omega
  · have hy := h.2.1
    simp at hy
    omega

/-- C6 counterexample: holding west (`K_a`) and east (`K_d`) together, the
code leaves the player facing EAST, because the keys are checked in the
source order west, east, north, south; under the claimed evaluation order
East, North, West, South the last held key would be west and the facing would
be WEST. -/
theorem player_update_key_order_counterexample :
    (playerEx.update 10 ⟨true, true, false, false⟩ = .ok playerExWE10
      ∧ playerExWE10.facing = .EAST
      ∧ playerExWE10.animator
        = some ⟨walkAnims, some "walk_right", some [2, 3], 0, 0, 76⟩)
    ∧ Directions.EAST ≠ Directions.WEST :=
  ⟨⟨rfl, rfl, rfl⟩, by decide⟩

/-- C6 as amended: the keys are checked in the fixed source order West
(`K_a`), East (`K_d`), North (`K_w`), South (`K_s`); every held key applies
its movement delta independently, and the LAST held key in that order
determines the final facing and requested animation name. -/
theorem player_update_key_order {α : Type} (p q : Player α) (t : Nat)
    (k : KeysPressed) (h : Player.update p t k = .ok q)
    (hheld : k.k_a = true ∨ k.k_d = true ∨ k.k_w = true ∨ k.k_s = true) :
    q.x = p.x
        + (if k.k_d = true then (((p.speed * t) / 1000 : Nat) : Int) else 0)
        - (if k.k_a = true then (((p.speed * t) / 1000 : Nat) : Int) else 0)
    ∧ q.y = p.y
        + (if k.k_s = true then (((p.speed * t) / 1000 : Nat) : Int) else 0)
        - (if k.k_w = true then (((p.speed * t) / 1000 : Nat) : Int) else 0)
    ∧ q.facing = (if k.k_s = true then .SOUTH
        else if k.k_w = true then .NORTH
        else if k.k_d = true then .EAST else .WEST)
    ∧ ∃ anim, q.animator = some anim
        ∧ anim.current_animation
          = some (if k.k_s = true then "walk_down"
              else if k.k_w = true then "walk_up"
              else if k.k_d = true then "walk_right" else "walk_left") := by
  have hs := playerUpdateSpec h
  obtain ⟨ka, kd, kw, ks⟩ := k
  refine ⟨hs.1, hs.2.1, ?_⟩
  cases ks with
  | true =>
    have hc := hs.2.2.2.1 rfl
    exact ⟨by simpa using hc.1, by simpa using hc.2⟩
  | false =>
    cases kw with
    | true =>
      have hc := hs.2.2.2.2.1 rfl rfl
      exact ⟨by simpa using hc.1, by simpa using hc.2⟩
    | false =>
      cases kd with
      | true =>
        have hc := hs.2.2.2.2.2.1 rfl rfl rfl
        exact ⟨by simpa using hc.1, by simpa using hc.2⟩
      | false =>
        cases ka with
        | true =>
          have hc := hs.2.2.2.2.2.2 rfl rfl rfl rfl
          exact ⟨by simpa using hc.1, by simpa using hc.2⟩
        | false => simp at hheld

/-- Witness for C6 (amended): the west+east scenario resolved through the
theorem. -/
theorem player_update_key_order_witness :
    playerExWE10.facing = Directions.EAST
    ∧ playerExWE10.x = playerEx.x
    ∧ playerExWE10.animator
      = some ⟨walkAnims, some "walk_right", some [2, 3], 0, 0, 76⟩ := by
  have h := player_update_key_order playerEx playerExWE10 10
    ⟨true, true, false, false⟩ rfl (Or.inl rfl)
  refine ⟨by simpa using h.2.2.1, ?_, rfl⟩
  have hx := h.1
  simp at hx
  omega

end Spoodle
